import Mathlib

/-!
# Verification of the ticket-media-manager approval pipeline

Shallow embedding of `src/media_bot-3.py` (a Discord media-approval bot):
the SQLite persistence layer (`is_url_approved`, `add_approved_url`,
`increment_user_stat`), the submission validator (`process_upload_request`),
the review-message codec (the embed built in `submit_context` /
`upload_prefix` and the parser at the top of `ApprovalView._handle_approval`),
and the approval handler itself.

Strings are modelled as `List Char` (`Str`), which matches Python's
code-point-indexed `str` for slicing, splitting and length.
-/

set_option maxRecDepth 8000

namespace MediaBot

/-- Python strings, modelled as lists of characters (Python indexes and
slices `str` by code point, as `List Char` does). -/
abbrev Str := List Char

/-! ## Python string primitives -/

/-- Python `s.split(sep)` for a single-character separator `c`
(unbounded number of splits; `"".split(c) = [""]`). -/
def pySplit (c : Char) : Str → List Str
  | [] => [[]]
  | x :: xs =>
    if x = c then [] :: pySplit c xs
    else
      match pySplit c xs with
      | [] => [[x]]
      | h :: t => (x :: h) :: t

/-- Split off the part of `s` before the first occurrence of `c`;
`none` when `c` does not occur. -/
def splitFirst (c : Char) : Str → Option (Str × Str)
  | [] => none
  | x :: xs =>
    if x = c then some ([], xs)
    else (splitFirst c xs).map fun p => (x :: p.1, p.2)

/-- Python `s.split(sep, maxsplit)` for a single-character separator. -/
def pySplitMax (c : Char) : Nat → Str → List Str
  | 0, s => [s]
  | n + 1, s =>
    match splitFirst c s with
    | none => [s]
    | some (a, b) => a :: pySplitMax c n b

/-- Python `sep.join(parts)` for a single-character separator. -/
def strJoin (c : Char) : List Str → Str
  | [] => []
  | [l] => l
  | l :: ls => l ++ c :: strJoin c ls

/-- Python `needle in hay` (substring containment). -/
def strContains : Str → Str → Bool
  | [], needle => needle.isEmpty
  | hay@(_ :: t), needle => needle.isPrefixOf hay || strContains t needle

/-- Python `s.strip()` (whitespace removed from both ends). -/
def pyStrip (s : Str) : Str :=
  ((s.dropWhile Char.isWhitespace).reverse.dropWhile Char.isWhitespace).reverse

/-- Decimal digits of `n`, most significant first (fuel-structured so it
reduces definitionally; `fuel ≥ n` suffices). -/
def natToStrAux : Nat → Nat → Str
  | 0, _ => []
  | fuel + 1, n =>
    if n = 0 then [] else natToStrAux fuel (n / 10) ++ [Nat.digitChar (n % 10)]

/-- Python `str(n)` for a natural number: its decimal digit string. -/
def natToStr (n : Nat) : Str :=
  if n = 0 then ['0'] else natToStrAux n n

/-- Big-endian decimal accumulation, the value `int(s)` computes on an
all-digit string. -/
def parseNatDigits (s : Str) : Nat :=
  s.foldl (fun a c => 10 * a + (c.toNat - 48)) 0

/-- Python `int(s)`: `some` value on a nonempty all-digit string, `none`
(a `ValueError`) otherwise. -/
def parseNat? (s : Str) : Option Nat :=
  if s.isEmpty then none
  else if s.all Char.isDigit then some (parseNatDigits s) else none

/-! ### Lemmas about the string primitives -/

theorem pySplit_no_sep {c : Char} {s : Str} (h : c ∉ s) : pySplit c s = [s] := by
  induction s with
  | nil => rfl
  | cons x xs ih =>
    have hx : x ≠ c := fun hxc => h (hxc ▸ List.mem_cons_self x xs)
    have hxs : c ∉ xs := fun hm => h (List.mem_cons_of_mem _ hm)
    simp [pySplit, hx, ih hxs]

theorem pySplit_append_cons {c : Char} {l r : Str} (h : c ∉ l) :
    pySplit c (l ++ c :: r) = l :: pySplit c r := by
  induction l with
  | nil => simp [pySplit]
  | cons x xs ih =>
    have hx : x ≠ c := fun hxc => h (hxc ▸ List.mem_cons_self x xs)
    have hxs : c ∉ xs := fun hm => h (List.mem_cons_of_mem _ hm)
    have hrw := ih hxs
    simp only [List.cons_append, pySplit, hx, if_false]
    rw [show xs.append (c :: r) = xs ++ c :: r from rfl, hrw]

theorem pySplit_strJoin {c : Char} : ∀ {ls : List Str}, ls ≠ [] →
    (∀ l ∈ ls, c ∉ l) → pySplit c (strJoin c ls) = ls
  | [], h, _ => absurd rfl h
  | [l], _, hl => by
    simpa [strJoin] using pySplit_no_sep (hl l (List.mem_singleton_self l))
  | l :: l' :: ls, _, hl => by
    have h1 : c ∉ l := hl l (List.mem_cons_self _ _)
    have h2 : ∀ x ∈ l' :: ls, c ∉ x := fun x hx => hl x (List.mem_cons_of_mem _ hx)
    have : strJoin c (l :: l' :: ls) = l ++ c :: strJoin c (l' :: ls) := rfl
    rw [this, pySplit_append_cons h1,
      pySplit_strJoin (List.cons_ne_nil _ _) h2]

theorem splitFirst_no_sep {c : Char} {s : Str} (h : c ∉ s) :
    splitFirst c s = none := by
  induction s with
  | nil => rfl
  | cons x xs ih =>
    have hx : x ≠ c := fun hxc => h (hxc ▸ List.mem_cons_self x xs)
    have hxs : c ∉ xs := fun hm => h (List.mem_cons_of_mem _ hm)
    simp [splitFirst, hx, ih hxs]

theorem splitFirst_append_cons {c : Char} {l r : Str} (h : c ∉ l) :
    splitFirst c (l ++ c :: r) = some (l, r) := by
  induction l with
  | nil => simp [splitFirst]
  | cons x xs ih =>
    have hx : x ≠ c := fun hxc => h (hxc ▸ List.mem_cons_self x xs)
    have hxs : c ∉ xs := fun hm => h (List.mem_cons_of_mem _ hm)
    simp [splitFirst, hx, ih hxs]

/-- `split('|', 2)` on a well-formed `u|f|r` line whose first two fields
are separator-free recovers exactly the three fields. -/
theorem pySplitMax_two {c : Char} {u f r : Str} (hu : c ∉ u) (hf : c ∉ f) :
    pySplitMax c 2 (u ++ c :: (f ++ c :: r)) = [u, f, r] := by
  simp [pySplitMax, splitFirst_append_cons hu, splitFirst_append_cons hf]

theorem dropWhile_eq_self_of_all {p : Char → Bool} {l : Str}
    (h : ∀ x ∈ l, p x = false) : l.dropWhile p = l := by
  cases l with
  | nil => rfl
  | cons a t => simp [List.dropWhile_cons, h a (List.mem_cons_self a t)]

theorem pyStrip_space_of_no_ws {s : Str}
    (h : ∀ x ∈ s, x.isWhitespace = false) : pyStrip (' ' :: s) = s := by
  have h1 : List.dropWhile Char.isWhitespace (' ' :: s) = s.dropWhile Char.isWhitespace := by
    simp [List.dropWhile_cons]
  have h2 : s.dropWhile Char.isWhitespace = s := dropWhile_eq_self_of_all h
  have h3 : s.reverse.dropWhile Char.isWhitespace = s.reverse :=
    dropWhile_eq_self_of_all (fun x hx => h x (List.mem_reverse.mp hx))
  simp [pyStrip, h1, h2, h3]

/-- The ten decimal digit characters: they are digits, not whitespace, and
distinct from every delimiter the codec uses. -/
theorem digitChar_props {d : Nat} (hd : d < 10) :
    (Nat.digitChar d).isDigit = true ∧ (Nat.digitChar d).isWhitespace = false ∧
    Nat.digitChar d ≠ '|' ∧ Nat.digitChar d ≠ '\n' ∧ Nat.digitChar d ≠ '`' ∧
    Nat.digitChar d ≠ ':' ∧ (Nat.digitChar d).toNat - 48 = d := by
  interval_cases d <;> exact ⟨rfl, rfl, by decide, by decide, by decide, by decide, rfl⟩

theorem natToStrAux_mem {fuel n : Nat} :
    ∀ c ∈ natToStrAux fuel n, ∃ d, d < 10 ∧ c = Nat.digitChar d := by
  induction fuel generalizing n with
  | zero => intro c hc; simp [natToStrAux] at hc
  | succ fuel ih =>
    intro c hc
    unfold natToStrAux at hc
    by_cases h0 : n = 0
    · simp [h0] at hc
    · simp only [h0, if_false, List.mem_append, List.mem_singleton] at hc
      cases hc with
      | inl h => exact ih c h
      | inr h => exact ⟨n % 10, Nat.mod_lt n (by norm_num), h⟩

theorem natToStr_props {n : Nat} : ∀ c ∈ natToStr n,
    c.isDigit = true ∧ c.isWhitespace = false ∧
    c ≠ '|' ∧ c ≠ '\n' ∧ c ≠ '`' ∧ c ≠ ':' := by
  intro c hc
  unfold natToStr at hc
  by_cases h0 : n = 0
  · simp [h0] at hc
    subst hc
    exact ⟨rfl, rfl, by decide, by decide, by decide, by decide⟩
  · simp only [h0, if_false] at hc
    obtain ⟨d, hd, rfl⟩ := natToStrAux_mem c hc
    obtain ⟨a, b, c1, c2, c3, c4, _⟩ := digitChar_props hd
    exact ⟨a, b, c1, c2, c3, c4⟩

theorem natToStr_ne_nil (n : Nat) : natToStr n ≠ [] := by
  unfold natToStr
  by_cases h0 : n = 0
  · simp [h0]
  · simp only [h0, if_false]
    cases fuel : n with
    | zero => exact absurd fuel h0
    | succ m =>
      unfold natToStrAux
      simp [h0]

theorem foldl_natToStrAux (fuel : Nat) : ∀ n acc, n ≤ fuel →
    (natToStrAux fuel n).foldl (fun a c => 10 * a + (c.toNat - 48)) acc
      = acc * 10 ^ (natToStrAux fuel n).length + n := by
  induction fuel with
  | zero =>
    intro n acc h
    interval_cases n
    simp [natToStrAux]
  | succ fuel ih =>
    intro n acc h
    unfold natToStrAux
    by_cases h0 : n = 0
    · simp [h0]
    · simp only [h0, if_false, List.foldl_append, List.foldl_cons, List.foldl_nil,
        List.length_append, List.length_cons, List.length_nil]
      have hdiv : n / 10 ≤ fuel := by
        have : n / 10 < n := Nat.div_lt_self (Nat.pos_of_ne_zero h0) (by norm_num)
        omega
      rw [ih (n / 10) acc hdiv]
      have hmod : (Nat.digitChar (n % 10)).toNat - 48 = n % 10 :=
        (digitChar_props (Nat.mod_lt n (by norm_num))).2.2.2.2.2.2
      rw [hmod]
      have := Nat.div_add_mod n 10
      ring_nf
      omega

/-- `int(str(n)) = n`: parsing the decimal string of `n` recovers `n`. -/
theorem parseNat?_natToStr (n : Nat) : parseNat? (natToStr n) = some n := by
  have hne : natToStr n ≠ [] := natToStr_ne_nil n
  have hall : (natToStr n).all Char.isDigit = true := by
    rw [List.all_eq_true]
    exact fun c hc => (natToStr_props c hc).1
  have hval : parseNatDigits (natToStr n) = n := by
    unfold parseNatDigits natToStr
    by_cases h0 : n = 0
    · simp [h0]
    · simp only [h0, if_false]
      rw [foldl_natToStrAux n n 0 (le_refl n)]
      simp
  unfold parseNat?
  simp [List.isEmpty_iff, hne, hall, hval]

/-! ## Data model -/

/-- A Discord attachment as the bot sees it. `content_type = []` models a
Python-falsy content type (`None` or `""`); the source always guards it
with `att.content_type or ...` / truthiness checks. -/
structure Attachment where
  url : Str
  filename : Str
  content_type : Str
deriving DecidableEq, Repr

/-- One row of the `approved_media` table (`init_db`, lines 100-108). -/
structure ApprovedRecord where
  url : Str
  original_message_id : Nat
  pending_message_id : Nat
  approver_id : Nat
  approved_at : Str
deriving DecidableEq, Repr

/-- The SQLite database: `approved_media` plus `user_approval_stats`
(`user_id` is the primary key of the assoc list). -/
structure DB where
  approved_media : List ApprovedRecord
  user_approval_stats : List (Nat × Nat)
deriving DecidableEq, Repr

/-! ## Persistence layer (lines 124-188) -/

/-- `is_url_approved` (lines 124-141): `SELECT 1 FROM approved_media WHERE
url = ?` is a fetch on the primary key. (A failing query degrades to
`False` in the source; the query itself performs no write.) -/
def is_url_approved (url : Str) (db : DB) : Bool :=
  db.approved_media.any fun r => r.url == url

/-- `add_approved_url` (lines 143-165): `INSERT OR IGNORE` keyed on `url`,
with the whole body inside `try/except sqlite3.Error`, so the function
never raises. `fault = true` models the body hitting a sqlite error: the
error is logged and swallowed and the database is unchanged. -/
def add_approved_url (url : Str) (original_message_id pending_message_id approver_id : Nat)
    (now : Str) (fault : Bool) (db : DB) : DB :=
  if fault then db
  else if db.approved_media.any (fun r => r.url == url) then db
  else { db with approved_media :=
      db.approved_media ++ [⟨url, original_message_id, pending_message_id, approver_id, now⟩] }

/-- `increment_user_stat` (lines 167-188): no-op for `count <= 0`, else
`INSERT ... ON CONFLICT(user_id) DO UPDATE` (atomic upsert); sqlite errors
are caught and swallowed (`fault`). -/
def increment_user_stat (user_id count : Nat) (fault : Bool) (db : DB) : DB :=
  if count = 0 then db
  else if fault then db
  else { db with user_approval_stats :=
      if db.user_approval_stats.any (fun p => p.1 == user_id)
      then db.user_approval_stats.map fun p =>
        if p.1 == user_id then (p.1, p.2 + count) else p
      else db.user_approval_stats ++ [(user_id, count)] }

/-- Every state-changing operation the program can issue against the
store. There is no delete: no operation removes an `approved_media` row. -/
inductive DBOp where
  | record (url : Str) (omid pmid aid : Nat) (now : Str) (fault : Bool)
  | incStat (uid count : Nat) (fault : Bool)
deriving DecidableEq

def applyOp (db : DB) : DBOp → DB
  | .record u o p a now f => add_approved_url u o p a now f db
  | .incStat u c f => increment_user_stat u c f db

def applyOps (db : DB) (ops : List DBOp) : DB := ops.foldl applyOp db

/-- Number of `approved_media` rows keyed by `u`. -/
def urlRowCount (u : Str) (db : DB) : Nat :=
  db.approved_media.countP fun r => r.url == u

/-! ## Submission validator (`process_upload_request`, lines 335-363) -/

/-- `content_type.startswith(('image/', 'video/'))` with
`content_type = a.content_type or ""`. -/
def isMediaAttachment (a : Attachment) : Bool :=
  "image/".data.isPrefixOf a.content_type || "video/".data.isPrefixOf a.content_type

/-- One iteration of the loop at lines 350-359; state =
`(new_attachments, valid_media_found, skipped_count)`. -/
def validate_step (db : DB) (st : List Attachment × Bool × Nat) (a : Attachment) :
    List Attachment × Bool × Nat :=
  if isMediaAttachment a then
    if !(is_url_approved a.url db) then (st.1 ++ [a], true, st.2.2)
    else (st.1, true, st.2.2 + 1)
  else st

/-- `process_upload_request` (lines 335-363): returns
`(error message or None, new attachments)`. It only reads the store
(via `is_url_approved`); it performs no write. -/
def process_upload_request (atts : List Attachment) (db : DB) :
    Option Str × List Attachment :=
  if atts.isEmpty then (some "Message has no attachments.".data, [])
  else
    let st := atts.foldl (validate_step db) ([], false, 0)
    if !st.2.1 then (some "No image/video attachments found.".data, [])
    else if st.1.isEmpty then
      (some ("All ".data ++ natToStr st.2.2 ++
        " image/video attachment(s) already approved.".data), [])
    else (none, st.1)

/-! ## Review-message codec: encoding (lines 642-652) -/

/-- An embed field (`name`, `value`); `inline` is presentation-only. -/
structure EmbedField where
  name : Str
  value : Str
deriving DecidableEq, Repr

/-- The review message's embed: the writable surface the codec uses. -/
structure Embed where
  title : Str
  description : Str
  fields : List EmbedField
  footer : Str
  image : Option Str
deriving DecidableEq, Repr

/-- `att.filename.replace('|','_').replace('\n','_')[:200]` (line 644). -/
def sanitizeFilename (s : Str) : Str :=
  (s.map fun c => if c = '|' ∨ c = '\n' then '_' else c).take 200

/-- `(att.content_type or 'unknown')[:100]` (line 644). -/
def ctypeField (ct : Str) : Str :=
  (if ct.isEmpty then "unknown".data else ct).take 100

/-- One footer line `d_str = f"{url}|{fname}|{ctype}"` with
`url = att.url[:1000]` (line 644). -/
def encodeAttLine (a : Attachment) : Str :=
  a.url.take 1000 ++ '|' :: (sanitizeFilename a.filename ++ '|' :: ctypeField a.content_type)

/-- The trim marker appended when the footer bound would be exceeded. -/
def trimMarker : Str := "...(details trimmed)".data

/-- The footer loop (lines 642-647): append lines while
`current_footer_len + len(d_str) + 1 <= footer_limit` (2048); on the
first line that would exceed the bound, append the trim marker and stop. -/
def buildFooterLines : List Attachment → Nat → List Str
  | [], _ => []
  | a :: rest, len =>
    let d := encodeAttLine a
    if len + d.length + 1 > 2048 then [trimMarker]
    else d :: buildFooterLines rest (len + d.length + 1)

/-- `footer_text = "\n".join(attachment_details)` (line 647). -/
def footerText (atts : List Attachment) : Str :=
  strJoin '\n' (buildFooterLines atts 0)

/-- A Discord user mention `<@id>`. -/
def mentionOf (id : Nat) : Str := "<@".data ++ natToStr id ++ ">".data

/-- The embed description (line 650). Note the `Original Author Name:`
line is NOT bold in the source (no `**`), unlike its neighbours. -/
def encodeDescription (submitterId authorId : Nat)
    (authorName chMention chName ticket jumpUrl : Str) (fileCount : Nat) : Str :=
  strJoin '\n' [
    "**Submitted by:** ".data ++ mentionOf submitterId ++ " (`".data ++
      natToStr submitterId ++ "`)".data,
    "**Original Author:** ".data ++ mentionOf authorId ++ " (`".data ++
      natToStr authorId ++ "`)".data,
    "Original Author Name: `".data ++ authorName ++ "`".data,
    "**Source Channel:** ".data ++ chMention ++ " (`".data ++ chName ++ "`)".data,
    "**Ticket Number:** `".data ++ ticket ++ "`".data,
    "**Original Message:** ".data ++ jumpUrl,
    "**Files Submitted:** ".data ++ natToStr fileCount]

/-- Embed title while pending (line 649; the leading characters are the
source file's literal bytes). -/
def pendingTitle : Str := "üì• Media Approval Request (Pending)".data

/-- The Status field value while pending (line 651). -/
def pendingStatus : Str := "‚è≥ Pending Approval".data

/-- The IDs field value (line 651):
`f"OriginalMsg: {id}\nSubmitter: {id}\nAuthor: {id}"` — three
`Key: value` lines joined by newlines. -/
def idsFieldValue (originalMsgId submitterId authorId : Nat) : Str :=
  strJoin '\n' ["OriginalMsg: ".data ++ natToStr originalMsgId,
                "Submitter: ".data ++ natToStr submitterId,
                "Author: ".data ++ natToStr authorId]

/-- The pending review embed built by `submit_context` (lines 648-652)
and identically by the `>>upload` command (lines 720-723). -/
def encodeSubmission (sourceMessageId submitterId authorId : Nat)
    (authorName chMention chName ticket jumpUrl : Str)
    (files : List Attachment) : Embed :=
  { title := pendingTitle
    description := encodeDescription submitterId authorId authorName chMention chName
      ticket jumpUrl files.length
    fields := [⟨"Status".data, pendingStatus⟩,
               ⟨"IDs".data, idsFieldValue sourceMessageId submitterId authorId⟩]
    footer := footerText files
    image := none }

/-! ## Review-message codec: decoding (lines 459-483) -/

/-- A parsed attachment descriptor
(`{"url": parts[0], "filename": parts[1], "content_type": parts[2]}`). -/
structure AttData where
  url : Str
  filename : Str
  content_type : Str
deriving DecidableEq, Repr

/-- One footer line (lines 461-465): skip lines ending in `"..."`, then
`parts = line.split('|', 2)`; keep the line only if it has 3 parts. -/
def parseAttLine? (line : Str) : Option AttData :=
  if "...".data.isSuffixOf line then none
  else match pySplitMax '|' 2 line with
    | [u, f, c] => some ⟨u, f, c⟩
    | _ => none

/-- Footer parsing (lines 459-465): split on newlines, parse each line,
skip unparsable ones (order preserved, as the loop appends). -/
def parseFooter (footer : Str) : List AttData :=
  (pySplit '\n' footer).filterMap parseAttLine?

/-- The backtick character (used as a quoting delimiter in the embed). -/
def btChar : Char := Char.ofNat 96

/-- `line.split("`")[1] if '`' in line else "unknown"` (lines 478-479). -/
def backtickField (line : Str) : Str :=
  if line.contains btChar then ((pySplit btChar line).drop 1).headD []
  else "unknown".data

/-- One line of the IDs field (lines 473-475): two independent
`startswith` checks, each taking `line.split(":", 1)[1].strip()`. -/
def idsStep (st : Option Str × Option Str) (line : Str) : Option Str × Option Str :=
  let cut := pyStrip (((pySplitMax ':' 1 line).drop 1).headD [])
  let st1 := if "OriginalMsg:".data.isPrefixOf line then (some cut, st.2) else st
  if "Author:".data.isPrefixOf line then (st1.1, some cut) else st1

/-- Try to match the regex `<@!?(\d+)>` at the start of `r` (after the
literal `<@` has been consumed); returns the digit group. -/
def mentionDigitsAt (r : Str) : Option Str :=
  let r1 := match r with
    | '!' :: r2 => r2
    | _ => r
  let ds := r1.takeWhile Char.isDigit
  match r1.drop ds.length with
  | '>' :: _ => if ds.isEmpty then none else some ds
  | _ => none

/-- `re.search(r'<@!?(\d+)>', line)` (line 480): first match anywhere. -/
def searchMention : Str → Option Str
  | [] => none
  | c :: rest =>
    match c, rest with
    | '<', '@' :: r =>
      (match mentionDigitsAt r with
       | some ds => some ds
       | none => searchMention rest)
    | _, _ => searchMention rest

/-- One description line (lines 477-480); state =
`(original_author_name, ticket_num_str, original_author_id_str)`. The
author-name check looks for the BOLD marker `**Original Author Name:**`,
which the encoder never writes (it writes the line without `**`). -/
def descStep (st : Str × Str × Option Str) (line : Str) : Str × Str × Option Str :=
  let name := if "**Original Author Name:**".data.isPrefixOf line
    then backtickField line else st.1
  let ticket := if "**Ticket Number:**".data.isPrefixOf line
    then backtickField line else st.2.1
  let aid := if (st.2.2.getD []).isEmpty && "**Original Author:**".data.isPrefixOf line
    then searchMention line else st.2.2
  (name, ticket, aid)

/-- `next((f.value for f in fields if f.name == nm), None)`. -/
def getFieldValue (nm : Str) (e : Embed) : Option Str :=
  (e.fields.find? (fun f => f.name == nm)).map (·.value)

inductive DecodeError where
  | noFooter
  | noAttachments
  | idParse
deriving DecidableEq, Repr

/-- Everything `_handle_approval` recovers from the review message. -/
structure Decoded where
  attachments : List AttData
  originalMsgId : Nat
  originalAuthorId : Nat
  ticketNumber : Str
  originalAuthorName : Str
deriving DecidableEq, Repr

/-- The decoding prefix of `_handle_approval` (lines 459-483): footer →
attachments, IDs field → message/author ids, description → author name,
ticket, and a fallback author id; `int()` failures abort (`idParse`). -/
def decodeEmbed (e : Embed) : Except DecodeError Decoded :=
  if e.footer.isEmpty then .error .noFooter
  else
    let atts := parseFooter e.footer
    if atts.isEmpty then .error .noAttachments
    else
      let ids := match getFieldValue "IDs".data e with
        | some v => (pySplit '\n' v).foldl idsStep (none, none)
        | none => (none, none)
      let desc := if e.description.isEmpty then ("unknown".data, "unknown".data, ids.2)
        else (pySplit '\n' e.description).foldl descStep
          ("unknown".data, "unknown".data, ids.2)
      let om? : Option Nat := match ids.1 with
        | some s => if s.isEmpty then some 0 else parseNat? s
        | none => some 0
      let aid? : Option Nat := match desc.2.2 with
        | some s => if s.isEmpty then some 0 else parseNat? s
        | none => some 0
      match om?, aid? with
      | some o, some a => .ok ⟨atts, o, a, desc.2.1, desc.1⟩
      | _, _ => .error .idParse

/-! ## Approval state machine (`ApprovalView._handle_approval`, lines 439-551) -/

/-- The double idempotency guard (lines 452-455): title truthy and free of
`"Pending"`, or else Status field truthy and free of `"Pending"`. -/
def isProcessed (e : Embed) : Bool :=
  if !e.title.isEmpty && !(strContains e.title "Pending".data) then true
  else match getFieldValue "Status".data e with
    | some v => !v.isEmpty && !(strContains v "Pending".data)
    | none => false

/-- A state-changing call issued against the store during one handler run. -/
inductive WriteOp where
  | addUrl (url : Str) (omid pmid aid : Nat)
  | incStat (uid count : Nat)
deriving DecidableEq, Repr

/-- The per-attachment loop (lines 488-495). `add_approved_url` catches
`sqlite3.Error` internally and never raises, so the `except` branch at
line 491 cannot run: `approved_count` is incremented for every parsed
attachment, and no `DB Error` failure note is ever appended. `addFaults i`
models the i-th insert hitting an internal (swallowed) sqlite error.
Returns `(db, approved_count, upload-task filenames, write ops issued)`. -/
def recordLoop (addFaults : Nat → Bool) (uploadToGallery lycheeEnabled : Bool)
    (origMsgId msgId approverId : Nat) (now : Str) :
    List AttData → Nat → DB → DB × Nat × List Str × List WriteOp
  | [], _, db => (db, 0, [], [])
  | a :: rest, i, db =>
    let db1 := add_approved_url a.url origMsgId msgId approverId now (addFaults i) db
    let tasks1 : List Str := if uploadToGallery && lycheeEnabled then [a.filename] else []
    let r := recordLoop addFaults uploadToGallery lycheeEnabled origMsgId msgId approverId
      now rest (i + 1) db1
    (r.1, r.2.1 + 1, tasks1 ++ r.2.2.1, .addUrl a.url origMsgId msgId approverId :: r.2.2.2)

/-- Outcome of one awaited upload task: completed with an exception of the
given type name, or returned `(success, msg)`. -/
inductive TaskResult where
  | exn (typeName : Str)
  | res (success : Bool) (msg : Str)
deriving DecidableEq, Repr

/-- The result-classification loop (lines 503-508), ported exactly: the
`if success:` at line 507 is NOT inside the `else` of line 506, so after
an exception result it reads `success`/`msg` left over from the previous
iteration — and on the FIRST iteration those are unbound, raising
`NameError` (modelled as `none`). State: `(lychee_success_count,
lychee_failures, last bound value of success/msg)`. -/
def processResults : List (Str × TaskResult) → Nat → List Str → Option (Bool × Str) →
    Option (Nat × List Str)
  | [], cnt, fails, _ => some (cnt, fails)
  | (fn, r) :: rest, cnt, fails, last =>
    match r with
    | .exn tn =>
      let fails1 := fails ++ [fn ++ ": Upload Err (".data ++ tn ++ ")".data]
      match last with
      | none => none
      | some (success, msg) =>
        if success then processResults rest (cnt + 1) fails1 last
        else processResults rest cnt (fails1 ++ [fn ++ ": ".data ++ msg]) last
    | .res success msg =>
      if success then processResults rest (cnt + 1) fails (some (success, msg))
      else processResults rest cnt (fails ++ [fn ++ ": ".data ++ msg]) (some (success, msg))

/-- Lines 510-513: increment the author's stat iff items were approved and
the author id is known. -/
def statStep (statFault : Bool) (authorId approvedCount : Nat) (db : DB) :
    DB × List WriteOp :=
  if approvedCount > 0 && authorId != 0 then
    (increment_user_stat authorId approvedCount statFault db,
     [.incStat authorId approvedCount])
  else (db, [])

/-- `set_field_at` on the first field named `nm`, or `add_field` if none
(the `next(...)` / `status_idx != -1` pattern, lines 518-522). -/
def setFieldFirst (nm v : Str) : List EmbedField → List EmbedField
  | [] => [⟨nm, v⟩]
  | f :: fs => if f.name == nm then ⟨nm, v⟩ :: fs else f :: setFieldFirst nm v fs

/-- `remove_field` on the first field named `nm`, if any (lines 532-533). -/
def removeFieldFirst (nm : Str) : List EmbedField → List EmbedField
  | [] => []
  | f :: fs => if f.name == nm then fs else f :: removeFieldFirst nm fs

/-- The rewritten title (line 516; source file's literal bytes). -/
def approvedTitle : Str := "‚úÖ Media Approved".data

/-- The rewritten Status value (lines 519-520). -/
def approvedStatusText (approverMention timeStr : Str) (uploadToGallery : Bool) : Str :=
  let t := "‚úÖ Approved by ".data ++ approverMention ++
    " on <t:".data ++ timeStr ++ ":f>".data
  if !uploadToGallery then t ++ " (Gallery Skipped)".data else t

/-- The Lychee Status value (lines 525-527). Note: the base text ends with
a period, the `( N fail)` suffix only appears when the failure list is
nonempty, and line 527 is not under the `if` of line 526, so the suffix is
appended even when `upload_to_gallery` is false. -/
def lycheeStatusValue (uploadToGallery : Bool) (successCount attempted : Nat)
    (failures : List Str) : Str :=
  let v := if uploadToGallery
    then natToStr successCount ++ "/".data ++ natToStr attempted ++ " uploaded.".data
    else "Skipped".data
  if !failures.isEmpty then
    v ++ " (".data ++ natToStr failures.length ++ " fail)".data
  else v

/-- The embed rewrite after approval (lines 516-533). -/
def buildApprovedEmbed (lycheeEnabled uploadToGallery : Bool)
    (approverMention timeStr : Str) (e : Embed) (successCount attempted : Nat)
    (failures : List Str) : Embed :=
  let fs := setFieldFirst "Status".data
    (approvedStatusText approverMention timeStr uploadToGallery) e.fields
  let fs1 := if lycheeEnabled
    then setFieldFirst "Lychee Status".data
      (lycheeStatusValue uploadToGallery successCount attempted failures) fs
    else removeFieldFirst "Lychee Status".data fs
  { e with title := approvedTitle, fields := fs1 }

/-- Terminal outcome of one `_handle_approval` invocation. -/
inductive Outcome where
  | errNoEmbed
  | alreadyProcessed
  | errNoFooter
  | errNoAttachments
  | errIdParse
  | crashedNameError (approvedCount : Nat)
  | approved (approvedCount successCount : Nat) (failures : List Str)
deriving DecidableEq, Repr

/-- The post-decode body of `_handle_approval` (lines 485-551): record
every parsed attachment, await the upload tasks and classify the results
(possibly dying with `NameError`, lines 503-508), increment the author
stat, rewrite the embed. -/
def approvalRun (lycheeEnabled uploadToGallery : Bool) (msgId approverId : Nat)
    (approverMention timeStr now : Str) (resultOracle : Nat → TaskResult)
    (addFaults : Nat → Bool) (statFault : Bool) (e : Embed) (dec : Decoded)
    (embeds : List Embed) (db : DB) : Outcome × DB × List Embed × List WriteOp :=
  match recordLoop addFaults uploadToGallery lycheeEnabled dec.originalMsgId
      msgId approverId now dec.attachments 0 db with
  | (db1, approvedCount, taskFns, ws) =>
    match processResults (taskFns.zip ((List.range taskFns.length).map resultOracle))
        0 [] none with
    | none => (.crashedNameError approvedCount, db1, embeds, ws)
    | some sf =>
      match statStep statFault dec.originalAuthorId approvedCount db1 with
      | (db2, ws2) =>
        (.approved approvedCount sf.1 sf.2, db2,
         [buildApprovedEmbed lycheeEnabled uploadToGallery approverMention timeStr e
           sf.1 dec.attachments.length sf.2],
         ws ++ ws2)

/-- `ApprovalView._handle_approval` (lines 439-551). `resultOracle i` is
the completion result of the i-th created upload task; `addFaults` /
`statFault` are the store's internal-error oracles. Returns
`(outcome, db, message embeds after any edit, write ops issued)`.
On `crashedNameError` the coroutine raised out of the handler: the
message is NOT rewritten and the stat increment never ran, but the
`add_approved_url` writes already issued stand. -/
def handleApproval (lycheeEnabled uploadToGallery : Bool) (msgId approverId : Nat)
    (approverMention timeStr now : Str) (resultOracle : Nat → TaskResult)
    (addFaults : Nat → Bool) (statFault : Bool)
    (embeds : List Embed) (db : DB) : Outcome × DB × List Embed × List WriteOp :=
  match embeds.head? with
  | none => (.errNoEmbed, db, embeds, [])
  | some e =>
    if isProcessed e then (.alreadyProcessed, db, embeds, [])
    else
      match decodeEmbed e with
      | .error .noFooter => (.errNoFooter, db, embeds, [])
      | .error .noAttachments => (.errNoAttachments, db, embeds, [])
      | .error .idParse => (.errIdParse, db, embeds, [])
      | .ok dec => approvalRun lycheeEnabled uploadToGallery msgId approverId
          approverMention timeStr now resultOracle addFaults statFault e dec embeds db

/-! ## Submission entry points (lines 621-751) -/

def MAX_FILES_PER_MESSAGE : Nat := 10

/-- Terminal outcome of one submission attempt. -/
inductive SubmitResult where
  | noPermission
  | validationFailed (msg : Str)
  | noNewMedia
  | nameErrorImgUrl
  | outerError
  | sent (e : Embed) (fileCount : Nat)
deriving DecidableEq, Repr

/-- Lines 654-656 (and identically 725-727): the embed-preview step.
The assignment `img_url = files_to_send[0].url` only happens when the
first file's content type is truthy and starts with `image/`, but the
following `if len(img_url) < 2000:` is a separate statement that runs
unconditionally, so when no branch assigned `img_url` Python raises
`NameError` (modelled as `none` here). -/
def imgUrlStep (files : List Attachment) : Option Str :=
  match files with
  | f :: _ =>
    if !f.content_type.isEmpty && "image/".data.isPrefixOf f.content_type
    then some f.url else none
  | [] => none

/-- The submission pipeline shared verbatim by the context-menu command
(lines 622-680) and the `>>upload` prefix command (lines 686-751):
role check, `process_upload_request`, truncation to
`MAX_FILES_PER_MESSAGE`, embed encoding, the preview step, then send. -/
def submitCore (hasRole : Bool) (atts : List Attachment) (db : DB)
    (sourceMessageId submitterId authorId : Nat)
    (authorName chMention chName ticket jumpUrl : Str) : SubmitResult :=
  if !hasRole then .noPermission
  else
    match process_upload_request atts db with
    | (some msg, _) => .validationFailed msg
    | (none, newAtts) =>
      if newAtts.isEmpty then .noNewMedia
      else
        let files := newAtts.take MAX_FILES_PER_MESSAGE
        let e := encodeSubmission sourceMessageId submitterId authorId authorName
          chMention chName ticket jumpUrl files
        match imgUrlStep files with
        | none => .nameErrorImgUrl
        | some u =>
          .sent (if u.length < 2000 then { e with image := some u } else e) files.length

/-- `submit_context` (lines 621-680): the `img_url` read happens outside
any `try`, so a `NameError` escapes the command handler and no review
message is sent. -/
def submit_context (hasRole : Bool) (atts : List Attachment) (db : DB)
    (sourceMessageId submitterId authorId : Nat)
    (authorName chMention chName ticket jumpUrl : Str) : SubmitResult :=
  submitCore hasRole atts db sourceMessageId submitterId authorId authorName
    chMention chName ticket jumpUrl

/-- The `>>upload` prefix command (`upload_prefix` in the source, renamed
here; lines 686-751): same pipeline, but the whole body sits in an outer
`try` whose `except Exception` (line 751) catches the `NameError` and
replies "Unexpected outer error." — still, no review message is sent. -/
def uploadCommand (hasRole : Bool) (atts : List Attachment) (db : DB)
    (sourceMessageId submitterId authorId : Nat)
    (authorName chMention chName ticket jumpUrl : Str) : SubmitResult :=
  match submitCore hasRole atts db sourceMessageId submitterId authorId authorName
    chMention chName ticket jumpUrl with
  | .nameErrorImgUrl => .outerError
  | r => r

/-! ## Codec-level derived definitions -/

/-- The total footer cost of a list of attachments: each line contributes
its length plus one (the `+ 1` the loop at line 646 adds per line). -/
def footerLen (atts : List Attachment) : Nat :=
  (atts.map fun a => (encodeAttLine a).length + 1).sum

/-- The attachment descriptor a footer line actually carries: url truncated
to 1000, filename sanitised and truncated to 200, content type defaulted
and truncated to 100. -/
def toAttData (a : Attachment) : AttData :=
  ⟨a.url.take 1000, sanitizeFilename a.filename, ctypeField a.content_type⟩

/-- Field bounds under which one encoded footer line reproduces the
attachment exactly: url ≤ 1000 chars and free of `|` and newlines,
filename ≤ 200 chars and free of `|` and newlines, content type present,
≤ 100 chars, newline-free, and not ending in `...` (which the decoder
would skip as a trim marker). -/
def WellFormedAttachment (a : Attachment) : Prop :=
  a.url.length ≤ 1000 ∧ '|' ∉ a.url ∧ '\n' ∉ a.url ∧
  a.filename.length ≤ 200 ∧ '|' ∉ a.filename ∧ '\n' ∉ a.filename ∧
  a.content_type ≠ [] ∧ a.content_type.length ≤ 100 ∧ '\n' ∉ a.content_type ∧
  "...".data.isSuffixOf (encodeAttLine a) = false

instance (a : Attachment) : Decidable (WellFormedAttachment a) := by
  unfold WellFormedAttachment
  infer_instance

/-! ## Concrete demonstration inputs -/

def demoAtt1 : Attachment := ⟨"http://cdn/a.png".data, "a.png".data, "image/png".data⟩

def demoAtt2 : Attachment := ⟨"http://cdn/b.png".data, "b.png".data, "image/png".data⟩

def demoAtt3 : Attachment := ⟨"http://cdn/c.png".data, "c.png".data, "image/png".data⟩

def demoVid : Attachment := ⟨"http://cdn/v.mp4".data, "v.mp4".data, "video/mp4".data⟩

def demoDB : DB := ⟨[], []⟩

def demoDBApproved : DB := ⟨[⟨"http://cdn/a.png".data, 1, 2, 3, "T".data⟩], []⟩

/-- A pending review message for three image attachments. -/
def demoEmbed3 : Embed :=
  encodeSubmission 111 222 333 "alice".data "<#9>".data "ticket-42".data "42".data
    "http://jump".data [demoAtt1, demoAtt2, demoAtt3]

/-- Upload outcomes: tasks 0 and 1 succeed, task 2 fails both phases. -/
def demoOracle : Nat → TaskResult := fun i =>
  if i = 2 then .res false "Download Error (404)".data
  else .res true "Imported via URL".data

/-- An Approve run on `demoEmbed3` with mirroring enabled. -/
def demoRun : Outcome × DB × List Embed × List WriteOp :=
  handleApproval true true 999 777 "<@777>".data "1700000000".data "T0".data
    demoOracle (fun _ => false) false [demoEmbed3] demoDB

/-- A 700-character url: three such attachments overflow the 2048 bound. -/
def demoLongUrl : Str := List.replicate 700 'a'

def demoLongAtts : List Attachment :=
  [⟨demoLongUrl, "f.png".data, "image/png".data⟩,
   ⟨demoLongUrl, "g.png".data, "image/png".data⟩,
   ⟨demoLongUrl, "h.png".data, "image/png".data⟩]

/-! ## Helper lemmas -/

theorem isEmpty_false_of_ne_nil {α : Type} {l : List α} (h : l ≠ []) :
    l.isEmpty = false := by
  cases l with
  | nil => exact absurd rfl h
  | cons a t => rfl

/-- The attachment loop of `process_upload_request`, characterised:
it filters eligible-and-new attachments in order, records whether any
eligible attachment exists, and counts the eligible-but-approved ones. -/
theorem validate_foldl (db : DB) (atts : List Attachment) (ns : List Attachment)
    (v : Bool) (k : Nat) :
    atts.foldl (validate_step db) (ns, v, k) =
      (ns ++ atts.filter (fun a => isMediaAttachment a && !is_url_approved a.url db),
       v || atts.any isMediaAttachment,
       k + atts.countP (fun a => isMediaAttachment a && is_url_approved a.url db)) := by
  induction atts generalizing ns v k with
  | nil => simp
  | cons a rest ih =>
    rw [List.foldl_cons]
    by_cases hm : isMediaAttachment a
    · by_cases ha : is_url_approved a.url db
      · have hstep : validate_step db (ns, v, k) a = (ns, true, k + 1) := by
          simp [validate_step, hm, ha]
        rw [hstep, ih]
        simp only [Prod.mk.injEq]
        refine ⟨by simp [List.filter_cons, hm, ha], by simp [List.any_cons, hm], ?_⟩
        rw [List.countP_cons]
        simp only [hm, ha, Bool.and_self, if_true]
        omega
      · have ha' : is_url_approved a.url db = false := by simpa using ha
        have hstep : validate_step db (ns, v, k) a = (ns ++ [a], true, k) := by
          simp [validate_step, hm, ha']
        rw [hstep, ih]
        simp only [Prod.mk.injEq]
        refine ⟨?_, by simp [List.any_cons, hm], ?_⟩
        · rw [List.filter_cons]
          simp [hm, ha', List.append_assoc]
        · rw [List.countP_cons]
          simp [hm, ha']
    · have hm' : isMediaAttachment a = false := by simpa using hm
      have hstep : validate_step db (ns, v, k) a = (ns, v, k) := by
        simp [validate_step, hm']
      rw [hstep, ih]
      simp [List.filter_cons, List.any_cons, List.countP_cons, hm']

/-! ## C4: monotone, idempotent approval records -/

theorem is_url_approved_add_self (u : Str) (o p a : Nat) (now : Str) (db : DB) :
    is_url_approved u (add_approved_url u o p a now false db) = true := by
  unfold add_approved_url is_url_approved
  by_cases h : db.approved_media.any (fun r => r.url == u)
  · simp [h]
  · simp [h, List.any_append]

theorem add_approved_url_noop (u : Str) (o p a : Nat) (now : Str) (f : Bool) (db : DB)
    (h : is_url_approved u db = true) : add_approved_url u o p a now f db = db := by
  unfold add_approved_url
  unfold is_url_approved at h
  cases f with
  | true => rfl
  | false => simp [h]

theorem is_url_approved_applyOp (u : Str) (db : DB) (op : DBOp)
    (h : is_url_approved u db = true) : is_url_approved u (applyOp db op) = true := by
  cases op with
  | record u' o p a now f =>
    unfold applyOp add_approved_url
    by_cases hf : f
    · simpa [hf]
    · by_cases hm : db.approved_media.any (fun r => r.url == u')
      · simpa [hf, hm]
      · unfold is_url_approved at h ⊢
        simp only [hf, hm, if_false]
        simp [List.any_append, h]
  | incStat uid c f =>
    unfold applyOp increment_user_stat
    by_cases hc : c = 0
    · simpa [hc]
    · by_cases hf : f
      · simpa [hc, hf]
      · unfold is_url_approved at h ⊢
        simp [hc, hf, h]

/-- C4: once `add_approved_url` has run for a url, `is_url_approved` is true
and stays true after any further sequence of store operations (none
retracts a row), and a duplicate insert — same or different batch — is a
silent no-op: the database is unchanged, so no second row appears (and the
function cannot raise: it is total by construction, mirroring the
`try/except sqlite3.Error` that swallows every storage error). -/
theorem recordApproval_monotone_idempotent :
    (∀ u o p a now db, is_url_approved u (add_approved_url u o p a now false db) = true)
    ∧ (∀ u db ops, is_url_approved u db = true →
        is_url_approved u (applyOps db ops) = true)
    ∧ (∀ u o p a now f db, is_url_approved u db = true →
        add_approved_url u o p a now f db = db)
    ∧ (∀ u o p a now o' p' a' now' f' db,
        urlRowCount u (add_approved_url u o' p' a' now' f'
          (add_approved_url u o p a now false db))
          = urlRowCount u (add_approved_url u o p a now false db)) := by
  refine ⟨is_url_approved_add_self, ?_, add_approved_url_noop, ?_⟩
  · intro u db ops h
    unfold applyOps
    induction ops generalizing db with
    | nil => simpa
    | cons op rest ih =>
      exact ih (applyOp db op) (is_url_approved_applyOp u db op h)
  · intro u o p a now o' p' a' now' f' db
    rw [add_approved_url_noop u o' p' a' now' f' _
      (is_url_approved_add_self u o p a now db)]

/-- Witness for C4 at a concrete url, database and operation list. -/
theorem recordApproval_monotone_idempotent_witness :
    is_url_approved "u1".data
      (add_approved_url "u1".data 1 2 3 "T".data false demoDB) = true ∧
    is_url_approved "u1".data
      (applyOps ⟨[⟨"u1".data, 1, 2, 3, "T".data⟩], []⟩
        [.record "u2".data 4 5 6 "T".data false, .incStat 7 1 false]) = true ∧
    add_approved_url "u1".data 8 9 10 "T".data false
      ⟨[⟨"u1".data, 1, 2, 3, "T".data⟩], []⟩ = ⟨[⟨"u1".data, 1, 2, 3, "T".data⟩], []⟩ ∧
    urlRowCount "u1".data (add_approved_url "u1".data 4 5 6 "T2".data false
      (add_approved_url "u1".data 1 2 3 "T".data false demoDB)) =
      urlRowCount "u1".data (add_approved_url "u1".data 1 2 3 "T".data false demoDB) :=
  ⟨recordApproval_monotone_idempotent.1 "u1".data 1 2 3 "T".data demoDB,
   recordApproval_monotone_idempotent.2.1 "u1".data ⟨[⟨"u1".data, 1, 2, 3, "T".data⟩], []⟩
     [.record "u2".data 4 5 6 "T".data false, .incStat 7 1 false] (by decide),
   recordApproval_monotone_idempotent.2.2.1 "u1".data 8 9 10 "T".data false
     ⟨[⟨"u1".data, 1, 2, 3, "T".data⟩], []⟩ (by decide),
   recordApproval_monotone_idempotent.2.2.2 "u1".data 1 2 3 "T".data 4 5 6 "T2".data
     false demoDB⟩

/-- The record loop counts every parsed attachment, whatever the fault
pattern: `add_approved_url` cannot raise, so the increment always runs. -/
theorem recordLoop_count (af : Nat → Bool) (U L : Bool) (o m ap : Nat) (now : Str) :
    ∀ (atts : List AttData) (i : Nat) (db : DB),
      (recordLoop af U L o m ap now atts i db).2.1 = atts.length := by
  intro atts
  induction atts with
  | nil => intro i db; rfl
  | cons a rest ih =>
    intro i db
    unfold recordLoop
    simp [ih]

/-! ## C10: `add_approved_url` never raises, so the count is always full -/

/-- C10: `add_approved_url` catches every `sqlite3.Error` internally, so the
handler's per-item `except` branch is dead: `approved_count` equals the
number of parsed attachment lines for EVERY fault pattern (first
conjunct); concretely, with every insert failing internally, nothing is
persisted yet the count is still the full length and the author's stat
increment is issued for that full count (remaining conjuncts). -/
theorem add_approved_url_total_full_count :
    (∀ af U L o m ap (now : Str) atts i db,
        (recordLoop af U L o m ap now atts i db).2.1 = atts.length)
    ∧ (recordLoop (fun _ => true) true true 1 999 777 "T".data
        [⟨"u1".data, "a".data, "image/png".data⟩,
         ⟨"u2".data, "b".data, "image/png".data⟩] 0 demoDB).1 = demoDB
    ∧ (statStep false 333
        (recordLoop (fun _ => true) true true 1 999 777 "T".data
          [⟨"u1".data, "a".data, "image/png".data⟩,
           ⟨"u2".data, "b".data, "image/png".data⟩] 0 demoDB).2.1 demoDB).2
        = [.incStat 333 2] :=
  ⟨fun af U L o m ap now atts i db => recordLoop_count af U L o m ap now atts i db,
   by decide, by decide⟩

/-! ## C3: the result-classification loop double-counts (code bug) -/

/-- C3 (code bug): the `if success:` at line 507 is not inside the `else`
of line 506. With results `[(success, "ok"), Exception]`, the exception
item is appended to the failure list AND the stale `success = True` from
the previous iteration increments the success counter again: the loop
reports 2 successes although only 1 task succeeded, classifying the
exception item twice. With an exception as the FIRST result, `success` is
read before any assignment and the handler dies with `NameError`
(modelled `none`) — a fatal error for the whole batch. -/
theorem processResults_double_counts :
    processResults [("a.png".data, .res true "ok".data),
                    ("b.png".data, .exn "ValueError".data)] 0 [] none
      = some (2, ["b.png: Upload Err (ValueError)".data]) ∧
    (2 : Nat) ≠ 1 ∧
    processResults [("a.png".data, .exn "ValueError".data)] 0 [] none = none ∧
    (handleApproval true true 999 777 "<@777>".data "1700000000".data "T0".data
        (fun _ => .exn "ValueError".data) (fun _ => false) false
        [demoEmbed3] demoDB).1 = .crashedNameError 3 :=
  ⟨rfl, by decide, rfl, by decide⟩

theorem countP_and_of_imp {α : Type} {p q : α → Bool} {l : List α}
    (h : ∀ a ∈ l, p a = true → q a = true) :
    l.countP (fun a => p a && q a) = l.countP p := by
  induction l with
  | nil => rfl
  | cons a rest ih =>
    simp only [List.countP_cons]
    rw [ih fun x hx => h x (List.mem_cons_of_mem _ hx)]
    by_cases hp : p a
    · simp [hp, h a (List.mem_cons_self a rest) hp]
    · simp [hp]

/-! ## C6: all eligible attachments already approved -/

/-- C6: if a message has at least one image/video attachment and every
eligible attachment's url is already approved, validation fails with the
`All N image/video attachment(s) already approved.` message where `N` is
exactly the number of eligible attachments excluded, and returns no
attachments. `process_upload_request` only calls `is_url_approved`
(a SELECT): it takes the store read-only and performs no write. -/
theorem all_already_approved_spec (atts : List Attachment) (db : DB)
    (hmedia : atts.any isMediaAttachment = true)
    (happ : ∀ a ∈ atts, isMediaAttachment a = true → is_url_approved a.url db = true) :
    process_upload_request atts db =
      (some ("All ".data ++ natToStr (atts.countP isMediaAttachment) ++
        " image/video attachment(s) already approved.".data), []) := by
  have hne : atts ≠ [] := by
    intro h
    rw [h] at hmedia
    simp at hmedia
  unfold process_upload_request
  rw [isEmpty_false_of_ne_nil hne, validate_foldl]
  have hfilter : atts.filter (fun a => isMediaAttachment a && !is_url_approved a.url db) = [] := by
    rw [List.filter_eq_nil_iff]
    intro a ha
    by_cases hm : isMediaAttachment a
    · simp [hm, happ a ha hm]
    · simp [hm]
  have hcount : atts.countP (fun a => isMediaAttachment a && is_url_approved a.url db)
      = atts.countP isMediaAttachment := countP_and_of_imp happ
  simp [hfilter, hcount, hmedia]

/-- Witness for C6: one eligible attachment whose url is already approved. -/
theorem all_already_approved_witness :
    process_upload_request [demoAtt1] demoDBApproved =
      (some "All 1 image/video attachment(s) already approved.".data, []) := by
  have h := all_already_approved_spec [demoAtt1] demoDBApproved (by decide) (by decide)
  rw [h]
  rfl

/-! ## C7: zero image/video attachments -/

/-- C7 counterexample: a submission with no attachments at all does NOT
fail with the `NoEligibleMedia` message — it fails with the distinct
`NoAttachments` message (`"Message has no attachments."`), so the claim's
"including submissions that have no attachments at all" is false. -/
theorem validation_empty_counterexample :
    process_upload_request [] demoDB = (some "Message has no attachments.".data, []) ∧
    "Message has no attachments.".data ≠ "No image/video attachments found.".data :=
  ⟨rfl, by decide⟩

/-- C7 amended: a submission with attachments but none of image/video type
fails with `No image/video attachments found.` (`NoEligibleMedia`); a
submission with no attachments at all fails earlier with the distinct
`Message has no attachments.` (`NoAttachments`); in every failing case
both entry points stop with the validation message and no review message
is produced. -/
theorem validation_no_eligible_media (atts : List Attachment) (db : DB)
    (smid sid aid : Nat) (an cm cn tk ju : Str) :
    (atts = [] →
      process_upload_request atts db = (some "Message has no attachments.".data, []))
    ∧ (atts ≠ [] → (∀ a ∈ atts, isMediaAttachment a = false) →
      process_upload_request atts db = (some "No image/video attachments found.".data, []))
    ∧ (∀ msg rest, process_upload_request atts db = (some msg, rest) →
      submit_context true atts db smid sid aid an cm cn tk ju = .validationFailed msg ∧
      uploadCommand true atts db smid sid aid an cm cn tk ju = .validationFailed msg) := by
  refine ⟨?_, ?_, ?_⟩
  · intro h
    subst h
    rfl
  · intro hne hall
    unfold process_upload_request
    rw [isEmpty_false_of_ne_nil hne, validate_foldl]
    have hany : atts.any isMediaAttachment = false :=
      List.any_eq_false.mpr fun a ha => by simp [hall a ha]
    simp [hany]
  · intro msg rest h
    have hcore : submitCore true atts db smid sid aid an cm cn tk ju
        = .validationFailed msg := by
      unfold submitCore
      rw [h]
      rfl
    exact ⟨hcore, by unfold uploadCommand; rw [hcore]⟩

/-- Witness for C7 (amended) at a text-only attachment list. -/
theorem validation_no_eligible_media_witness :
    process_upload_request [⟨"http://cdn/t.txt".data, "t.txt".data, "text/plain".data⟩]
      demoDB = (some "No image/video attachments found.".data, []) ∧
    submit_context true [⟨"http://cdn/t.txt".data, "t.txt".data, "text/plain".data⟩]
      demoDB 1 2 3 "n".data "c".data "cn".data "t".data "j".data
      = .validationFailed "No image/video attachments found.".data := by
  have h := (validation_no_eligible_media
    [⟨"http://cdn/t.txt".data, "t.txt".data, "text/plain".data⟩]
    demoDB 1 2 3 "n".data "c".data "cn".data "t".data "j".data).2.1
    (by decide) (by decide)
  exact ⟨h, ((validation_no_eligible_media _ demoDB 1 2 3 "n".data "c".data "cn".data
    "t".data "j".data).2.2 _ _ h).1⟩

/-! ## C9: `img_url` read before assignment -/

/-- C9: for a validated submission whose first selected attachment is an
eligible non-image item (content type `video/...`), both entry points
reach `if len(img_url) < 2000:` with `img_url` never assigned: the
context-menu handler dies with `NameError`, the prefix command's outer
`except` catches the same `NameError` and reports an unexpected error —
and in both cases no review message is sent to the pending channel. -/
theorem img_url_unbound (atts : List Attachment) (db : DB)
    (smid sid aid : Nat) (an cm cn tk ju : Str)
    (newAtts : List Attachment) (a0 : Attachment) (tl : List Attachment)
    (hvalid : process_upload_request atts db = (none, newAtts))
    (hhead : newAtts.take MAX_FILES_PER_MESSAGE = a0 :: tl)
    (hvid : "video/".data.isPrefixOf a0.content_type = true) :
    submit_context true atts db smid sid aid an cm cn tk ju = .nameErrorImgUrl ∧
    uploadCommand true atts db smid sid aid an cm cn tk ju = .outerError := by
  have hne : newAtts ≠ [] := by
    intro h
    rw [h] at hhead
    simp at hhead
  obtain ⟨r, hct⟩ : ∃ r, a0.content_type = 'v' :: r := by
    cases hc : a0.content_type with
    | nil => rw [hc] at hvid; simp [List.isPrefixOf] at hvid
    | cons c cr =>
      rw [hc] at hvid
      have hv : ('v' == c) = true := by
        by_contra hvc
        simp only [List.isPrefixOf, show "video/".data = 'v' :: "ideo/".data from rfl,
          Bool.and_eq_true] at hvid
        exact hvc hvid.1
      exact ⟨cr, by rw [(beq_iff_eq.mp hv)]⟩
  have hstep : imgUrlStep (newAtts.take MAX_FILES_PER_MESSAGE) = none := by
    rw [hhead]
    have hred : imgUrlStep (a0 :: tl) =
        if !a0.content_type.isEmpty && "image/".data.isPrefixOf a0.content_type
        then some a0.url else none := rfl
    rw [hred, hct]
    simp [List.isPrefixOf]
  have hcore : submitCore true atts db smid sid aid an cm cn tk ju
      = .nameErrorImgUrl := by
    unfold submitCore
    rw [hvalid]
    simp only [Bool.not_true, Bool.false_eq_true, if_false,
      isEmpty_false_of_ne_nil hne]
    rw [hstep]
  exact ⟨hcore, by unfold uploadCommand; rw [hcore]⟩

/-- Witness for C9: one fresh `video/mp4` attachment. -/
theorem img_url_unbound_witness :
    submit_context true [demoVid] demoDB 1 2 3 "n".data "c".data "cn".data "t".data
      "j".data = .nameErrorImgUrl ∧
    uploadCommand true [demoVid] demoDB 1 2 3 "n".data "c".data "cn".data "t".data
      "j".data = .outerError :=
  img_url_unbound [demoVid] demoDB 1 2 3 "n".data "c".data "cn".data "t".data "j".data
    [demoVid] demoVid [] (by decide) (by decide) (by decide)

/-! ## Codec lemmas: footer lines -/

theorem natToStr_no_ws (n : Nat) : ∀ x ∈ natToStr n, x.isWhitespace = false :=
  fun x hx => (natToStr_props x hx).2.1

theorem natToStr_no_nl (n : Nat) : '\n' ∉ natToStr n :=
  fun h => (natToStr_props '\n' h).2.2.2.1 rfl

theorem mentionOf_no_nl (n : Nat) : '\n' ∉ mentionOf n := by
  unfold mentionOf
  intro h
  rcases List.mem_append.mp h with h | h
  · rcases List.mem_append.mp h with h | h
    · revert h; decide
    · exact natToStr_no_nl n h
  · revert h; decide

theorem sanitizeFilename_no_pipe_nl (s : Str) :
    ∀ c ∈ sanitizeFilename s, c ≠ '|' ∧ c ≠ '\n' := by
  intro c hc
  unfold sanitizeFilename at hc
  have hc' := List.take_subset _ _ hc
  obtain ⟨x, _, rfl⟩ := List.mem_map.mp hc'
  by_cases hx : x = '|' ∨ x = '\n'
  · rw [if_pos hx]
    exact ⟨by decide, by decide⟩
  · rw [if_neg hx]
    push_neg at hx
    exact hx

theorem sanitizeFilename_id {s : Str} (hp : '|' ∉ s) (hn : '\n' ∉ s)
    (hlen : s.length ≤ 200) : sanitizeFilename s = s := by
  unfold sanitizeFilename
  have hmap : s.map (fun c => if c = '|' ∨ c = '\n' then '_' else c) = s := by
    rw [List.map_congr_left (g := id) ?_, List.map_id]
    intro c hc
    have h1 : ¬(c = '|' ∨ c = '\n') := by
      rintro (rfl | rfl)
      · exact hp hc
      · exact hn hc
    simp [h1]
  rw [hmap, List.take_of_length_le hlen]

theorem ctypeField_id {ct : Str} (hne : ct ≠ []) (hlen : ct.length ≤ 100) :
    ctypeField ct = ct := by
  unfold ctypeField
  rw [isEmpty_false_of_ne_nil hne]
  simp [List.take_of_length_le hlen]

theorem ctypeField_no_nl {ct : Str} (hc : '\n' ∉ ct) : '\n' ∉ ctypeField ct := by
  unfold ctypeField
  intro hm
  have hm' := List.take_subset _ _ hm
  by_cases h : ct.isEmpty = true
  · rw [if_pos h] at hm'
    revert hm'
    decide
  · rw [if_neg h] at hm'
    exact hc hm'

theorem encodeAttLine_ne_nil (a : Attachment) : encodeAttLine a ≠ [] := by
  unfold encodeAttLine
  cases h : a.url.take 1000 with
  | nil => simp
  | cons c r => simp

theorem encodeAttLine_no_nl {a : Attachment} (hu : '\n' ∉ a.url)
    (hc : '\n' ∉ a.content_type) : '\n' ∉ encodeAttLine a := by
  unfold encodeAttLine
  intro hm
  rcases List.mem_append.mp hm with h | h
  · exact hu (List.take_subset _ _ h)
  · rcases List.mem_cons.mp h with h | h
    · exact absurd h (by decide)
    · rcases List.mem_append.mp h with h | h
      · exact ((sanitizeFilename_no_pipe_nl _ '\n' h).2 rfl)
      · rcases List.mem_cons.mp h with h | h
        · exact absurd h (by decide)
        · exact ctypeField_no_nl hc h

theorem parseAttLine_encode (a : Attachment)
    (hdots : "...".data.isSuffixOf (encodeAttLine a) = false)
    (hu : '|' ∉ a.url) :
    parseAttLine? (encodeAttLine a) = some (toAttData a) := by
  unfold parseAttLine?
  rw [hdots]
  simp only [Bool.false_eq_true, if_false]
  have hu' : '|' ∉ a.url.take 1000 := fun h => hu (List.take_subset _ _ h)
  have hf : '|' ∉ sanitizeFilename a.filename :=
    fun h => (sanitizeFilename_no_pipe_nl _ '|' h).1 rfl
  rw [show encodeAttLine a = a.url.take 1000 ++ '|' ::
    (sanitizeFilename a.filename ++ '|' :: ctypeField a.content_type) from rfl,
    pySplitMax_two hu' hf]
  rfl

theorem strJoin_ne_nil {c : Char} {l : Str} {ls : List Str} (h : l ≠ []) :
    strJoin c (l :: ls) ≠ [] := by
  cases ls with
  | nil => simpa [strJoin]
  | cons l2 ls2 =>
    rw [show strJoin c (l :: l2 :: ls2) = l ++ c :: strJoin c (l2 :: ls2) from rfl]
    simp

theorem buildFooterLines_no_trim : ∀ (atts : List Attachment) (len : Nat),
    len + footerLen atts ≤ 2048 →
    buildFooterLines atts len = atts.map encodeAttLine := by
  intro atts
  induction atts with
  | nil => intro len _; rfl
  | cons a rest ih =>
    intro len h
    unfold footerLen at h
    simp only [List.map_cons, List.sum_cons] at h
    have hcond : ¬ (len + (encodeAttLine a).length + 1 > 2048) := by omega
    show (if len + (encodeAttLine a).length + 1 > 2048 then [trimMarker]
      else encodeAttLine a :: buildFooterLines rest (len + (encodeAttLine a).length + 1))
      = (a :: rest).map encodeAttLine
    rw [if_neg hcond, List.map_cons]
    congr 1
    exact ih _ (by unfold footerLen; omega)

theorem buildFooterLines_trim : ∀ (atts : List Attachment) (len : Nat),
    len ≤ 2048 → len + footerLen atts > 2048 →
    ∃ k, k < atts.length ∧
      buildFooterLines atts len = (atts.take k).map encodeAttLine ++ [trimMarker] ∧
      len + footerLen (atts.take k) ≤ 2048 ∧
      len + footerLen (atts.take (k + 1)) > 2048 := by
  intro atts
  induction atts with
  | nil =>
    intro len h1 h2
    exfalso
    unfold footerLen at h2
    simp at h2
    omega
  | cons a rest ih =>
    intro len h1 h2
    by_cases hc : len + (encodeAttLine a).length + 1 > 2048
    · refine ⟨0, by simp, ?_, ?_, ?_⟩
      · show (if len + (encodeAttLine a).length + 1 > 2048 then [trimMarker]
          else encodeAttLine a :: buildFooterLines rest (len + (encodeAttLine a).length + 1))
          = ((a :: rest).take 0).map encodeAttLine ++ [trimMarker]
        rw [if_pos hc]
        rfl
      · simpa [footerLen]
      · unfold footerLen
        simp only [List.take_succ_cons, List.take_zero, List.map_cons, List.map_nil,
          List.sum_cons, List.sum_nil]
        omega
    · have hlen' : len + (encodeAttLine a).length + 1 ≤ 2048 := by omega
      have hover' : (len + (encodeAttLine a).length + 1) + footerLen rest > 2048 := by
        unfold footerLen at h2 ⊢
        simp only [List.map_cons, List.sum_cons] at h2
        omega
      obtain ⟨k, hk1, hk2, hk3, hk4⟩ := ih (len + (encodeAttLine a).length + 1) hlen' hover'
      refine ⟨k + 1, by simpa [Nat.succ_lt_succ_iff] using hk1, ?_, ?_, ?_⟩
      · show (if len + (encodeAttLine a).length + 1 > 2048 then [trimMarker]
          else encodeAttLine a :: buildFooterLines rest (len + (encodeAttLine a).length + 1))
          = ((a :: rest).take (k + 1)).map encodeAttLine ++ [trimMarker]
        rw [if_neg hc, hk2]
        simp [List.take_succ_cons]
      · unfold footerLen at hk3 ⊢
        simp only [List.take_succ_cons, List.map_cons, List.sum_cons]
        omega
      · unfold footerLen at hk4 ⊢
        simp only [List.take_succ_cons, List.map_cons, List.sum_cons]
        omega

theorem filterMap_parse_encode : ∀ (l : List Attachment),
    (∀ a ∈ l, "...".data.isSuffixOf (encodeAttLine a) = false) →
    (∀ a ∈ l, '|' ∉ a.url) →
    (l.map encodeAttLine).filterMap parseAttLine? = l.map toAttData := by
  intro l
  induction l with
  | nil => intro _ _; rfl
  | cons a rest ih =>
    intro h1 h2
    simp only [List.map_cons]
    rw [List.filterMap_cons_some
      (parseAttLine_encode a (h1 a (List.mem_cons_self a rest))
        (h2 a (List.mem_cons_self a rest))),
      ih (fun x hx => h1 x (List.mem_cons_of_mem _ hx))
        (fun x hx => h2 x (List.mem_cons_of_mem _ hx))]

theorem parseFooter_encode (atts : List Attachment) (hne : atts ≠ [])
    (hfit : footerLen atts ≤ 2048)
    (hnlL : ∀ a ∈ atts, '\n' ∉ encodeAttLine a)
    (hdots : ∀ a ∈ atts, "...".data.isSuffixOf (encodeAttLine a) = false)
    (hu : ∀ a ∈ atts, '|' ∉ a.url) :
    parseFooter (footerText atts) = atts.map toAttData := by
  unfold parseFooter footerText
  rw [buildFooterLines_no_trim atts 0 (by omega)]
  rw [pySplit_strJoin (fun h => hne (List.map_eq_nil_iff.mp h)) ?_]
  · exact filterMap_parse_encode atts hdots hu
  · intro l hl
    obtain ⟨a, ha, rfl⟩ := List.mem_map.mp hl
    exact hnlL a ha

theorem footerText_ne_nil (atts : List Attachment) (hne : atts ≠ [])
    (hfit : footerLen atts ≤ 2048) : footerText atts ≠ [] := by
  unfold footerText
  rw [buildFooterLines_no_trim atts 0 (by omega)]
  cases atts with
  | nil => exact absurd rfl hne
  | cons a rest =>
    rw [List.map_cons]
    exact strJoin_ne_nil (encodeAttLine_ne_nil a)

/-! ## C5: metadata-block truncation -/

/-- C5: when the attachments' combined encoded footer length exceeds the
2048 bound, encoding emits exactly the lines of a maximal fitting prefix
(`take k`), stops before the line that would cross the bound, and appends
the trim marker as the final line; decoding the resulting block recovers
exactly the `url|filename|contentType` records of the lines preceding the
marker (the marker line itself parses to nothing). Well-formedness
hypotheses: encoded lines contain no newline, do not end in `...`, and
urls contain no `|`. -/
theorem footer_truncation (atts : List Attachment)
    (hover : footerLen atts > 2048)
    (hnlL : ∀ a ∈ atts, '\n' ∉ encodeAttLine a)
    (hdots : ∀ a ∈ atts, "...".data.isSuffixOf (encodeAttLine a) = false)
    (hu : ∀ a ∈ atts, '|' ∉ a.url) :
    ∃ k, k < atts.length ∧
      buildFooterLines atts 0 = (atts.take k).map encodeAttLine ++ [trimMarker] ∧
      footerLen (atts.take k) ≤ 2048 ∧
      footerLen (atts.take (k + 1)) > 2048 ∧
      parseFooter (footerText atts) = (atts.take k).map toAttData := by
  obtain ⟨k, hk1, hk2, hk3, hk4⟩ := buildFooterLines_trim atts 0 (by omega) (by omega)
  refine ⟨k, hk1, hk2, by simpa using hk3, by simpa using hk4, ?_⟩
  unfold parseFooter footerText
  rw [hk2, pySplit_strJoin (by simp) ?_]
  · rw [List.filterMap_append,
      filterMap_parse_encode (atts.take k)
        (fun a ha => hdots a (List.take_subset _ _ ha))
        (fun a ha => hu a (List.take_subset _ _ ha))]
    rw [show List.filterMap parseAttLine? [trimMarker] = [] from rfl]
    simp
  · intro l hl
    rcases List.mem_append.mp hl with h | h
    · obtain ⟨a, ha, rfl⟩ := List.mem_map.mp h
      exact hnlL a (List.take_subset _ _ ha)
    · rcases List.mem_cons.mp h with rfl | h
      · decide
      · exact absurd h (List.not_mem_nil l)

/-- Witness for C5: three attachments with 700-character urls (per-line
cost 717, total 2151 > 2048): the theorem applies and, concretely, the
built footer is the first two lines followed by the trim marker. -/
theorem footer_truncation_witness :
    footerLen demoLongAtts > 2048 ∧
    (∃ k, k < demoLongAtts.length ∧
      buildFooterLines demoLongAtts 0
        = (demoLongAtts.take k).map encodeAttLine ++ [trimMarker] ∧
      footerLen (demoLongAtts.take k) ≤ 2048 ∧
      footerLen (demoLongAtts.take (k + 1)) > 2048 ∧
      parseFooter (footerText demoLongAtts) = (demoLongAtts.take k).map toAttData) :=
  ⟨by decide,
   footer_truncation demoLongAtts (by decide) (by decide) (by decide) (by decide)⟩

/-! ## Codec lemmas: IDs field and description decoding -/

theorem idsStep_originalMsg (st : Option Str × Option Str) (n : Nat) :
    idsStep st ("OriginalMsg: ".data ++ natToStr n) = (some (natToStr n), st.2) := by
  have hsf : splitFirst ':' ("OriginalMsg: ".data ++ natToStr n)
      = some ("OriginalMsg".data, ' ' :: natToStr n) :=
    splitFirst_append_cons (c := ':') (l := "OriginalMsg".data)
      (r := ' ' :: natToStr n) (by decide)
  have hsm : pySplitMax ':' 1 ("OriginalMsg: ".data ++ natToStr n)
      = ["OriginalMsg".data, ' ' :: natToStr n] := by
    unfold pySplitMax
    rw [hsf]
    rfl
  have h1 : "OriginalMsg:".data.isPrefixOf ("OriginalMsg: ".data ++ natToStr n) = true := rfl
  have h2 : "Author:".data.isPrefixOf ("OriginalMsg: ".data ++ natToStr n) = false := rfl
  unfold idsStep
  rw [hsm]
  simp only [List.drop_succ_cons, List.drop_zero, List.headD_cons,
    pyStrip_space_of_no_ws (natToStr_no_ws n), h1, h2]
  simp

theorem idsStep_author (st : Option Str × Option Str) (n : Nat) :
    idsStep st ("Author: ".data ++ natToStr n) = (st.1, some (natToStr n)) := by
  have hsf : splitFirst ':' ("Author: ".data ++ natToStr n)
      = some ("Author".data, ' ' :: natToStr n) :=
    splitFirst_append_cons (c := ':') (l := "Author".data)
      (r := ' ' :: natToStr n) (by decide)
  have hsm : pySplitMax ':' 1 ("Author: ".data ++ natToStr n)
      = ["Author".data, ' ' :: natToStr n] := by
    unfold pySplitMax
    rw [hsf]
    rfl
  have h1 : "OriginalMsg:".data.isPrefixOf ("Author: ".data ++ natToStr n) = false := rfl
  have h2 : "Author:".data.isPrefixOf ("Author: ".data ++ natToStr n) = true := rfl
  unfold idsStep
  rw [hsm]
  simp only [List.drop_succ_cons, List.drop_zero, List.headD_cons,
    pyStrip_space_of_no_ws (natToStr_no_ws n), h1, h2]
  simp

theorem idsStep_noop (st : Option Str × Option Str) (l : Str)
    (h1 : "OriginalMsg:".data.isPrefixOf l = false)
    (h2 : "Author:".data.isPrefixOf l = false) :
    idsStep st l = st := by
  unfold idsStep
  simp [h1, h2]

/-- Decoding the IDs field recovers the original-message and author id
strings (the `Submitter:` line is never looked at by the decoder). -/
theorem idsFold (omid sid aid : Nat) :
    (pySplit '\n' (idsFieldValue omid sid aid)).foldl idsStep (none, none)
      = (some (natToStr omid), some (natToStr aid)) := by
  have hlines : ∀ l ∈ ["OriginalMsg: ".data ++ natToStr omid,
      "Submitter: ".data ++ natToStr sid, "Author: ".data ++ natToStr aid],
      '\n' ∉ l := by
    intro l hl
    simp only [List.mem_cons, List.not_mem_nil, or_false] at hl
    rcases hl with rfl | rfl | rfl
    all_goals
      intro hm
      rcases List.mem_append.mp hm with h | h
      · revert h; decide
      · exact natToStr_no_nl _ h
  unfold idsFieldValue
  rw [pySplit_strJoin (by simp) hlines, List.foldl_cons, List.foldl_cons,
    List.foldl_cons, List.foldl_nil, idsStep_originalMsg,
    idsStep_noop _ ("Submitter: ".data ++ natToStr sid) rfl rfl, idsStep_author]

theorem descStep_noop (st : Str × Str × Option Str) (l : Str)
    (h1 : "**Original Author Name:**".data.isPrefixOf l = false)
    (h2 : "**Ticket Number:**".data.isPrefixOf l = false)
    (h3 : "**Original Author:**".data.isPrefixOf l = false) :
    descStep st l = st := by
  unfold descStep
  simp [h1, h2, h3]

theorem descStep_noop_mention (st : Str × Str × Option Str) (l : Str)
    (h1 : "**Original Author Name:**".data.isPrefixOf l = false)
    (h2 : "**Ticket Number:**".data.isPrefixOf l = false)
    (hne : (st.2.2.getD []).isEmpty = false) :
    descStep st l = st := by
  unfold descStep
  simp [h1, h2, hne]

theorem descStep_ticket (st : Str × Str × Option Str) (tk : Str) (hbt : btChar ∉ tk) :
    descStep st ("**Ticket Number:** `".data ++ tk ++ "`".data)
      = (st.1, tk, st.2.2) := by
  have h1 : "**Original Author Name:**".data.isPrefixOf
      ("**Ticket Number:** `".data ++ tk ++ "`".data) = false := rfl
  have h2 : "**Ticket Number:**".data.isPrefixOf
      ("**Ticket Number:** `".data ++ tk ++ "`".data) = true := rfl
  have h3 : "**Original Author:**".data.isPrefixOf
      ("**Ticket Number:** `".data ++ tk ++ "`".data) = false := rfl
  have hmem : btChar ∈ "**Ticket Number:** `".data ++ tk ++ "`".data :=
    List.mem_append.mpr (Or.inl (List.mem_append.mpr (Or.inl (by decide))))
  have hcont : ("**Ticket Number:** `".data ++ tk ++ "`".data).contains btChar = true :=
    List.elem_eq_true_of_mem hmem
  have hshape : "**Ticket Number:** `".data ++ tk ++ "`".data
      = "**Ticket Number:** ".data ++ btChar :: (tk ++ btChar :: ([] : Str)) := rfl
  have hp2 : pySplit btChar (tk ++ btChar :: ([] : Str))
      = [tk, []] := by
    rw [pySplit_append_cons hbt]
    rfl
  have hbf : backtickField ("**Ticket Number:** `".data ++ tk ++ "`".data) = tk := by
    unfold backtickField
    rw [hcont, hshape, pySplit_append_cons (by decide), hp2]
    simp
  unfold descStep
  simp only [h1, h2, h3, hbf]
  simp

/-- Decoding the description: the author-name marker (with `**`) never
matches the encoded line (written without `**`), so the name stays
`"unknown"`; the ticket is recovered; the author-id fallback never fires
because the IDs field already supplied a nonempty id string. -/
theorem descFold (sid aid fc : Nat) (an cm cn tk ju s : Str) (hs : s ≠ [])
    (hbt : btChar ∉ tk) (h1 : '\n' ∉ an) (h2 : '\n' ∉ cm) (h3 : '\n' ∉ cn)
    (h4 : '\n' ∉ tk) (h5 : '\n' ∉ ju) :
    (pySplit '\n' (encodeDescription sid aid an cm cn tk ju fc)).foldl descStep
      ("unknown".data, "unknown".data, some s)
      = ("unknown".data, tk, some s) := by
  have hsne : (((("unknown".data, "unknown".data, some s) :
      Str × Str × Option Str)).2.2.getD []).isEmpty = false :=
    isEmpty_false_of_ne_nil hs
  have hlines : ∀ l ∈ [
      "**Submitted by:** ".data ++ mentionOf sid ++ " (`".data ++
        natToStr sid ++ "`)".data,
      "**Original Author:** ".data ++ mentionOf aid ++ " (`".data ++
        natToStr aid ++ "`)".data,
      "Original Author Name: `".data ++ an ++ "`".data,
      "**Source Channel:** ".data ++ cm ++ " (`".data ++ cn ++ "`)".data,
      "**Ticket Number:** `".data ++ tk ++ "`".data,
      "**Original Message:** ".data ++ ju,
      "**Files Submitted:** ".data ++ natToStr fc], '\n' ∉ l := by
    intro l hl
    simp only [List.mem_cons, List.not_mem_nil, or_false] at hl
    rcases hl with rfl | rfl | rfl | rfl | rfl | rfl | rfl <;> intro hm
    · rcases List.mem_append.mp hm with h | h
      · rcases List.mem_append.mp h with h | h
        · rcases List.mem_append.mp h with h | h
          · rcases List.mem_append.mp h with h | h
            · revert h; decide
            · exact mentionOf_no_nl sid h
          · revert h; decide
        · exact natToStr_no_nl sid h
      · revert h; decide
    · rcases List.mem_append.mp hm with h | h
      · rcases List.mem_append.mp h with h | h
        · rcases List.mem_append.mp h with h | h
          · rcases List.mem_append.mp h with h | h
            · revert h; decide
            · exact mentionOf_no_nl aid h
          · revert h; decide
        · exact natToStr_no_nl aid h
      · revert h; decide
    · rcases List.mem_append.mp hm with h | h
      · rcases List.mem_append.mp h with h | h
        · revert h; decide
        · exact h1 h
      · revert h; decide
    · rcases List.mem_append.mp hm with h | h
      · rcases List.mem_append.mp h with h | h
        · rcases List.mem_append.mp h with h | h
          · rcases List.mem_append.mp h with h | h
            · revert h; decide
            · exact h2 h
          · revert h; decide
        · exact h3 h
      · revert h; decide
    · rcases List.mem_append.mp hm with h | h
      · rcases List.mem_append.mp h with h | h
        · revert h; decide
        · exact h4 h
      · revert h; decide
    · rcases List.mem_append.mp hm with h | h
      · revert h; decide
      · exact h5 h
    · rcases List.mem_append.mp hm with h | h
      · revert h; decide
      · exact natToStr_no_nl fc h
  unfold encodeDescription
  rw [pySplit_strJoin (by simp) hlines, List.foldl_cons, List.foldl_cons,
    List.foldl_cons, List.foldl_cons, List.foldl_cons, List.foldl_cons,
    List.foldl_cons, List.foldl_nil,
    descStep_noop _ ("**Submitted by:** ".data ++ mentionOf sid ++ " (`".data ++
      natToStr sid ++ "`)".data) rfl rfl rfl,
    descStep_noop_mention _ ("**Original Author:** ".data ++ mentionOf aid ++
      " (`".data ++ natToStr aid ++ "`)".data) rfl rfl hsne,
    descStep_noop _ ("Original Author Name: `".data ++ an ++ "`".data) rfl rfl rfl,
    descStep_noop _ ("**Source Channel:** ".data ++ cm ++ " (`".data ++ cn ++
      "`)".data) rfl rfl rfl,
    descStep_ticket _ tk hbt,
    descStep_noop _ ("**Original Message:** ".data ++ ju) rfl rfl rfl,
    descStep_noop _ ("**Files Submitted:** ".data ++ natToStr fc) rfl rfl rfl]

theorem encodeDescription_ne_nil (sid aid fc : Nat) (an cm cn tk ju : Str) :
    encodeDescription sid aid an cm cn tk ju fc ≠ [] := by
  unfold encodeDescription
  apply strJoin_ne_nil
  intro h
  have := congrArg List.length h
  simp [List.length_append] at this

/-- Decoding an encoded pending review message, in full: attachments come
back as the (possibly truncated/sanitised) footer records, the source
message id and original-author id are recovered from the IDs field, the
ticket number from the description — but the original-author name decodes
to `"unknown"` and the submitter id is not read at all. -/
theorem decodeEmbed_encodeSubmission (smid sid aid : Nat) (an cm cn tk ju : Str)
    (atts : List Attachment) (hne : atts ≠ [])
    (hfit : footerLen atts ≤ 2048)
    (hnlL : ∀ a ∈ atts, '\n' ∉ encodeAttLine a)
    (hdots : ∀ a ∈ atts, "...".data.isSuffixOf (encodeAttLine a) = false)
    (hu : ∀ a ∈ atts, '|' ∉ a.url)
    (hbt : btChar ∉ tk) (h1 : '\n' ∉ an) (h2 : '\n' ∉ cm) (h3 : '\n' ∉ cn)
    (h4 : '\n' ∉ tk) (h5 : '\n' ∉ ju) :
    decodeEmbed (encodeSubmission smid sid aid an cm cn tk ju atts)
      = .ok ⟨atts.map toAttData, smid, aid, tk, "unknown".data⟩ := by
  unfold decodeEmbed
  rw [show (encodeSubmission smid sid aid an cm cn tk ju atts).footer
      = footerText atts from rfl,
    isEmpty_false_of_ne_nil (footerText_ne_nil atts hne hfit)]
  simp only [Bool.false_eq_true, if_false]
  rw [parseFooter_encode atts hne hfit hnlL hdots hu,
    isEmpty_false_of_ne_nil (fun h => hne (List.map_eq_nil_iff.mp h))]
  simp only [Bool.false_eq_true, if_false]
  rw [show getFieldValue "IDs".data (encodeSubmission smid sid aid an cm cn tk ju atts)
      = some (idsFieldValue smid sid aid) from rfl]
  simp only []
  rw [idsFold]
  rw [show (encodeSubmission smid sid aid an cm cn tk ju atts).description
      = encodeDescription sid aid an cm cn tk ju atts.length from rfl,
    isEmpty_false_of_ne_nil (encodeDescription_ne_nil sid aid atts.length an cm cn tk ju)]
  simp only [Bool.false_eq_true, if_false]
  rw [descFold sid aid atts.length an cm cn tk ju (natToStr aid)
    (natToStr_ne_nil aid) hbt h1 h2 h3 h4 h5]
  simp only [isEmpty_false_of_ne_nil (natToStr_ne_nil smid),
    isEmpty_false_of_ne_nil (natToStr_ne_nil aid), Bool.false_eq_true, if_false,
    parseNat?_natToStr]

/-! ## C1: the round-trip law -/

/-- C1 counterexample: a submission with every field within bounds (one
small attachment, url ≤ 1000, filename ≤ 200) whose original-author name
is `"alice"` decodes to a record whose author name is `"unknown"` — the
decoder looks for the bold marker `**Original Author Name:**` which the
encoder never writes. (The decoded record also carries no submitter id at
all: the decoder never reads the `Submitter:` line.) So decoding does not
reconstruct the submission in all the claim's fields. -/
theorem roundtrip_loses_author_name :
    decodeEmbed (encodeSubmission 111 222 333 "alice".data "<#9>".data
      "ticket-42".data "42".data "http://jump".data [demoAtt1])
      = .ok ⟨[⟨demoAtt1.url, demoAtt1.filename, demoAtt1.content_type⟩],
             111, 333, "42".data, "unknown".data⟩ ∧
    "unknown".data ≠ "alice".data :=
  ⟨rfl, by decide⟩

/-- C1 amended: for a submission with 1..10 attachments whose fields are
within bounds and delimiter-clean (`WellFormedAttachment`), whose ticket
has no backtick, whose string fields have no newlines, and whose combined
footer length fits the 2048 bound, decoding the encoded Pending message
reconstructs the source message id, the original-author id, the ticket
number, and every attachment's url, filename and content type in order —
but NOT the submitter id (never decoded) and NOT the original-author name
(always decoded as `"unknown"`). -/
theorem decode_encode_roundtrip (smid sid aid : Nat) (an cm cn tk ju : Str)
    (atts : List Attachment) (hne : atts ≠ []) (_hlen : atts.length ≤ 10)
    (hwf : ∀ a ∈ atts, WellFormedAttachment a)
    (hfit : footerLen atts ≤ 2048)
    (hbt : btChar ∉ tk) (h1 : '\n' ∉ an) (h2 : '\n' ∉ cm) (h3 : '\n' ∉ cn)
    (h4 : '\n' ∉ tk) (h5 : '\n' ∉ ju) :
    decodeEmbed (encodeSubmission smid sid aid an cm cn tk ju atts)
      = .ok ⟨atts.map (fun a => ⟨a.url, a.filename, a.content_type⟩),
             smid, aid, tk, "unknown".data⟩ := by
  have hnlL : ∀ a ∈ atts, '\n' ∉ encodeAttLine a := by
    intro a ha
    obtain ⟨_, _, hu3, _, _, _, _, _, hc3, _⟩ := hwf a ha
    exact encodeAttLine_no_nl hu3 hc3
  have hdots : ∀ a ∈ atts, "...".data.isSuffixOf (encodeAttLine a) = false := by
    intro a ha
    exact (hwf a ha).2.2.2.2.2.2.2.2.2
  have hu : ∀ a ∈ atts, '|' ∉ a.url := fun a ha => (hwf a ha).2.1
  have hmap : atts.map toAttData
      = atts.map (fun a => (⟨a.url, a.filename, a.content_type⟩ : AttData)) := by
    apply List.map_congr_left
    intro a ha
    obtain ⟨hu1, hu2, _, hf1, hf2, hf3, hc1, hc2, _, _⟩ := hwf a ha
    unfold toAttData
    rw [List.take_of_length_le hu1, sanitizeFilename_id hf2 hf3 hf1,
      ctypeField_id hc1 hc2]
  rw [decodeEmbed_encodeSubmission smid sid aid an cm cn tk ju atts hne hfit
    hnlL hdots hu hbt h1 h2 h3 h4 h5, hmap]

/-- Witness for C1 (amended) at a concrete two-attachment submission. -/
theorem decode_encode_roundtrip_witness :
    decodeEmbed (encodeSubmission 111 222 333 "alice".data "<#9>".data
      "ticket-42".data "42".data "http://jump".data [demoAtt1, demoAtt2])
      = .ok ⟨[⟨demoAtt1.url, demoAtt1.filename, demoAtt1.content_type⟩,
              ⟨demoAtt2.url, demoAtt2.filename, demoAtt2.content_type⟩],
             111, 333, "42".data, "unknown".data⟩ :=
  decode_encode_roundtrip 111 222 333 "alice".data "<#9>".data "ticket-42".data
    "42".data "http://jump".data [demoAtt1, demoAtt2] (by decide) (by decide)
    (by decide) (by decide) (by decide) (by decide) (by decide) (by decide)
    (by decide) (by decide)

/-! ## Handler inversion lemmas (for C2 and C8) -/

theorem find?_setFieldFirst (nm v : Str) (fs : List EmbedField) :
    (setFieldFirst nm v fs).find? (fun f => f.name == nm) = some ⟨nm, v⟩ := by
  induction fs with
  | nil =>
    unfold setFieldFirst
    rw [List.find?_cons_of_pos _ (by simp)]
  | cons f fs ih =>
    unfold setFieldFirst
    by_cases hf : (f.name == nm) = true
    · rw [if_pos hf, List.find?_cons_of_pos _ (by simp)]
    · rw [if_neg hf, List.find?_cons_of_neg _ (by simpa using hf)]
      exact ih

theorem buildApprovedEmbed_title (L U : Bool) (am ts : Str) (e : Embed)
    (sc n : Nat) (fails : List Str) :
    (buildApprovedEmbed L U am ts e sc n fails).title = approvedTitle := rfl

theorem getFieldValue_buildApproved_lychee (U : Bool) (am ts : Str) (e : Embed)
    (sc n : Nat) (fails : List Str) :
    getFieldValue "Lychee Status".data (buildApprovedEmbed true U am ts e sc n fails)
      = some (lycheeStatusValue U sc n fails) := by
  unfold buildApprovedEmbed getFieldValue
  simp only [if_true]
  rw [find?_setFieldFirst]
  rfl

theorem isProcessed_approvedTitle (e : Embed) (h : e.title = approvedTitle) :
    isProcessed e = true := by
  unfold isProcessed
  rw [h]
  have hc : (!approvedTitle.isEmpty && !(strContains approvedTitle "Pending".data))
      = true := by decide
  simp [hc]

theorem handleApproval_processed (L U : Bool) (m a : Nat) (am ts now : Str)
    (ro : Nat → TaskResult) (af : Nat → Bool) (sf : Bool)
    (e : Embed) (rest : List Embed) (db : DB) (h : isProcessed e = true) :
    handleApproval L U m a am ts now ro af sf (e :: rest) db
      = (.alreadyProcessed, db, e :: rest, []) := by
  unfold handleApproval
  simp [h]

/-- Inverting a completed Approve: the rewritten message is exactly one
embed, produced by `buildApprovedEmbed`, and the approved count equals the
number of decoded attachments. -/
theorem approvalRun_approved_shape (L U : Bool) (m a : Nat) (am ts now : Str)
    (ro : Nat → TaskResult) (af : Nat → Bool) (sf : Bool) (e : Embed)
    (dec : Decoded) (embeds : List Embed) (db : DB)
    (ac sc : Nat) (fails : List Str) (db' : DB) (es' : List Embed) (w : List WriteOp)
    (h : approvalRun L U m a am ts now ro af sf e dec embeds db
        = (.approved ac sc fails, db', es', w)) :
    es' = [buildApprovedEmbed L U am ts e sc dec.attachments.length fails]
      ∧ ac = dec.attachments.length := by
  unfold approvalRun at h
  split at h
  rename_i db1 apc taskFns ws heq
  split at h
  · simp at h
  · rename_i sf2 _
    split at h
    rename_i db2 ws2 _
    simp only [Prod.mk.injEq, Outcome.approved.injEq] at h
    obtain ⟨⟨hac, hsc, hfails⟩, _, hes, _⟩ := h
    refine ⟨?_, ?_⟩
    · rw [← hes, hsc, hfails]
    · have := recordLoop_count af U L dec.originalMsgId m a now dec.attachments 0 db
      rw [heq] at this
      simp only at this
      rw [← hac, ← this]

/-- Inverting a completed Approve through the guards: the message list
after the edit is a single approved embed. -/
theorem handleApproval_approved_embeds (L U : Bool) (m a : Nat) (am ts now : Str)
    (ro : Nat → TaskResult) (af : Nat → Bool) (sf : Bool)
    (embeds : List Embed) (db : DB)
    (ac sc : Nat) (fails : List Str) (db' : DB) (es' : List Embed) (w : List WriteOp)
    (h : handleApproval L U m a am ts now ro af sf embeds db
        = (.approved ac sc fails, db', es', w)) :
    ∃ (e : Embed) (dec : Decoded),
      es' = [buildApprovedEmbed L U am ts e sc dec.attachments.length fails]
      ∧ ac = dec.attachments.length := by
  unfold handleApproval at h
  cases hemb : embeds.head? with
  | none =>
    rw [hemb] at h
    simp at h
  | some e =>
    rw [hemb] at h
    by_cases hproc : isProcessed e = true
    · simp [hproc] at h
    · have hproc' : isProcessed e = false := by simpa using hproc
      simp only [hproc', Bool.false_eq_true, if_false] at h
      cases hdec : decodeEmbed e with
      | error err =>
        rw [hdec] at h
        cases err <;> simp at h
      | ok dec =>
        rw [hdec] at h
        obtain ⟨hes, hac⟩ := approvalRun_approved_shape L U m a am ts now ro af sf
          e dec embeds db ac sc fails db' es' w h
        exact ⟨e, dec, hes, hac⟩

/-! ## C2: approval is idempotent -/

/-- C2: once an Approve transition has completed — the review message was
rewritten with the non-Pending approved title and status — a second
Approve invocation on that message (any reviewer, any configuration) is
rejected by the `Already processed` guard before any work: the outcome is
`alreadyProcessed`, the database is untouched, the message is not edited,
and the list of issued write operations is empty. Hence the records and
stat increments written by the first run remain the only ones: exactly one
`ApprovedMediaRecord` per attachment url (`add_approved_url` is
insert-if-absent) and exactly one stat increment for the author. -/
theorem approve_idempotent (L U : Bool) (m a : Nat) (am ts now : Str)
    (ro : Nat → TaskResult) (af : Nat → Bool) (sf : Bool)
    (embeds : List Embed) (db : DB)
    (L' U' : Bool) (m' a' : Nat) (am' ts' now' : Str)
    (ro' : Nat → TaskResult) (af' : Nat → Bool) (sf' : Bool)
    (ac sc : Nat) (fails : List Str) (db' : DB) (es' : List Embed) (w : List WriteOp)
    (h : handleApproval L U m a am ts now ro af sf embeds db
        = (.approved ac sc fails, db', es', w)) :
    handleApproval L' U' m' a' am' ts' now' ro' af' sf' es' db'
      = (.alreadyProcessed, db', es', []) := by
  obtain ⟨e, dec, hes, -⟩ := handleApproval_approved_embeds L U m a am ts now ro af sf
    embeds db ac sc fails db' es' w h
  rw [hes]
  exact handleApproval_processed L' U' m' a' am' ts' now' ro' af' sf' _ [] db'
    (isProcessed_approvedTitle _ (buildApprovedEmbed_title L U am ts e sc
      dec.attachments.length fails))

/-- Witness for C2: the second Approve on the concrete `demoRun` message
is rejected with no writes. -/
theorem approve_idempotent_witness :
    handleApproval true true 999 777 "<@777>".data "1700000000".data "T0".data
      demoOracle (fun _ => false) false demoRun.2.2.1 demoRun.2.1
      = (.alreadyProcessed, demoRun.2.1, demoRun.2.2.1, []) :=
  approve_idempotent true true 999 777 "<@777>".data "1700000000".data "T0".data
    demoOracle (fun _ => false) false [demoEmbed3] demoDB
    true true 999 777 "<@777>".data "1700000000".data "T0".data
    demoOracle (fun _ => false) false
    3 2 ["c.png: Download Error (404)".data]
    demoRun.2.1 demoRun.2.2.1 demoRun.2.2.2 rfl

/-! ## C8: the upload summary string -/

/-- C8 counterexample: the summary the code writes for the 3-attachment,
2-success, 1-failure scenario is `2/3 uploaded. (1 fail)` — with a period
after `uploaded` — not the claimed `2/3 uploaded (1 fail)`. -/
theorem upload_summary_has_period :
    (demoRun.2.2.1.head?.bind (getFieldValue "Lychee Status".data))
      = some "2/3 uploaded. (1 fail)".data ∧
    "2/3 uploaded. (1 fail)".data ≠ "2/3 uploaded (1 fail)".data :=
  ⟨rfl, by decide⟩

/-- C8 amended: with mirroring enabled and uploads attempted, the
rewritten message's `Lychee Status` field carries
`<successCount>/<attemptedCount> uploaded.` — note the trailing period —
followed by ` (<failureCount> fail)` exactly when at least one failure was
collected (the suffix is omitted when there are none); `attemptedCount` is
the number of parsed attachment lines. In the 3-attachment scenario with
2 successes and 1 double-phase failure this reads `2/3 uploaded. (1 fail)`. -/
theorem upload_summary_form (m a : Nat) (am ts now : Str)
    (ro : Nat → TaskResult) (af : Nat → Bool) (sf : Bool)
    (embeds : List Embed) (db : DB)
    (ac sc : Nat) (fails : List Str) (db' : DB) (es' : List Embed) (w : List WriteOp)
    (h : handleApproval true true m a am ts now ro af sf embeds db
        = (.approved ac sc fails, db', es', w)) :
    ∃ e', es' = [e'] ∧
      getFieldValue "Lychee Status".data e'
        = some (lycheeStatusValue true sc ac fails) ∧
      lycheeStatusValue true sc ac fails
        = natToStr sc ++ "/".data ++ natToStr ac ++ " uploaded.".data ++
          (if fails.isEmpty then ([] : Str)
           else " (".data ++ natToStr fails.length ++ " fail)".data) := by
  obtain ⟨e, dec, hes, hac⟩ := handleApproval_approved_embeds true true m a am ts now
    ro af sf embeds db ac sc fails db' es' w h
  refine ⟨_, hes, ?_, ?_⟩
  · rw [getFieldValue_buildApproved_lychee, hac]
  · unfold lycheeStatusValue
    by_cases hf : fails.isEmpty = true
    · simp [hf, List.append_assoc]
    · have hf' : fails.isEmpty = false := by simpa using hf
      simp [hf', List.append_assoc]

/-- Witness for C8 (amended) at the concrete `demoRun` scenario. -/
theorem upload_summary_form_witness :
    ∃ e', demoRun.2.2.1 = [e'] ∧
      getFieldValue "Lychee Status".data e'
        = some (lycheeStatusValue true 2 3 ["c.png: Download Error (404)".data]) ∧
      lycheeStatusValue true 2 3 ["c.png: Download Error (404)".data]
        = natToStr 2 ++ "/".data ++ natToStr 3 ++ " uploaded.".data ++
          (if (["c.png: Download Error (404)".data] : List Str).isEmpty then ([] : Str)
           else " (".data ++
             natToStr (["c.png: Download Error (404)".data] : List Str).length ++
             " fail)".data) :=
  upload_summary_form 999 777 "<@777>".data "1700000000".data "T0".data
    demoOracle (fun _ => false) false [demoEmbed3] demoDB
    3 2 ["c.png: Download Error (404)".data]
    demoRun.2.1 demoRun.2.2.1 demoRun.2.2.2 rfl

end MediaBot
